import Mathlib

/-!
Shallow embedding of `src/src/proc/layouter.rs` (the `Layouter` type-layout
pass of the repository) together with theorems checking the specification
claims about it.

Modelling conventions:
* Machine integers are natural numbers.  The `u8` products in the
  `Vector` and `Matrix` cases are reduced modulo 256, and the `u32`
  array-size product and member-end addition modulo `2 ^ 32`, matching
  the wrapping semantics of the release-mode Rust arithmetic at the
  operations where a wrap is reachable.  `round_up` needs no reduction:
  in the nonzero branch its value is `offset + alignment - (offset &&& alignment)`,
  which equals `offset ||| alignment` (the bits of the alignment missing
  from the offset are added), so for `u32` inputs the result and hence
  the wrapping computation agree with the exact one.
* Every panicking operation (`NonZeroU32::new(..).unwrap()`, out-of-bounds
  indexing of a `Vec` or an `Arena`, the `unreachable!` arm) is modelled
  by `Option`, with `none` standing for the panic; `initialize` therefore
  returns `none` exactly when the pass aborts, and never a partial table.
* Arena handles are bare natural-number indices (`Handle::index`); an
  `Arena` is a `List` in insertion order.
* Fields of the IR that the layouter never reads (scalar kinds, pointer
  targets, image and sampler descriptors, the `block` flag of a struct,
  constant widths beyond pattern position) are dropped from the model.
-/

namespace Layouter

/-- The modulus of u32 arithmetic, 2 ^ 32. -/
def u32Mod : Nat := 4294967296

/-- Models `Alignment::new(n).unwrap()` from the source: constructing a
`NonZeroU32` from `n`, panicking (`none`) when `n = 0`. -/
def alignmentNew (n : Nat) : Option Nat :=
  if n = 0 then none else some n

/-- The `TypeLayout` struct of the source: computed size and alignment of a
type.  The Rust `alignment` field is a `NonZeroU32`; here it is a `Nat`,
with nonzeroness guaranteed by `alignmentNew` on every construction path. -/
structure TypeLayout where
  size : Nat
  alignment : Nat
  deriving DecidableEq, Repr

/-- The `VectorSize` enum of the IR: two, three or four components.
`toNat` mirrors the Rust `as u8` cast values. -/
inductive VectorSize
  | bi
  | tri
  | quad
  deriving DecidableEq, Repr

/-- The `as u8` value of a `VectorSize`. -/
def VectorSize.toNat : VectorSize → Nat
  | .bi => 2
  | .tri => 3
  | .quad => 4

/-- The comparison `size >= crate::VectorSize::Tri` of the source; the Rust
enum order agrees with the order of the cast values. -/
def VectorSize.atLeastTri (s : VectorSize) : Bool := 3 ≤ s.toNat

/-- The `ArraySize` enum of the IR: a constant-handle element count or a
dynamic (runtime-sized) length. -/
inductive ArraySize
  | constant (handle : Nat)
  | dynamic
  deriving DecidableEq, Repr

/-- The `ScalarValue` enum of the IR.  The layouter reads only the integer
payloads; the float and boolean payloads are never read (those arms hit
`unreachable!`), so they are dropped from the model. -/
inductive ScalarValue
  | uint (value : Nat)
  | sint (value : Int)
  | float
  | bool
  deriving DecidableEq, Repr

/-- The `ConstantInner` enum of the IR: a scalar value with a width, or a
composite constant (payload unused by the layouter). -/
inductive ConstantInner
  | scalar (width : Nat) (value : ScalarValue)
  | composite
  deriving DecidableEq, Repr

/-- The `Constant` IR node; the layouter reads only its `inner` field. -/
structure Constant where
  inner : ConstantInner
  deriving DecidableEq, Repr

/-- The `StructMember` IR node: a type handle plus optional alignment and
size overrides.  In Rust the overrides are `Option<NonZeroU32>`; here they
are `Option Nat`, with nonzeroness imposed as a well-formedness predicate
where a theorem needs it. -/
structure StructMember where
  ty : Nat
  align : Option Nat
  size : Option Nat
  deriving DecidableEq, Repr

/-- The `TypeInner` enum of the IR, restricted to the payloads the
layouter reads. -/
inductive TypeInner
  | scalar (width : Nat)
  | vector (size : VectorSize) (width : Nat)
  | matrix (columns : VectorSize) (rows : VectorSize) (width : Nat)
  | pointer
  | valuePointer
  | array (base : Nat) (size : ArraySize) (stride : Option Nat)
  | struct (members : List StructMember)
  | image
  | sampler
  deriving DecidableEq, Repr

/-- The `Type` IR node; the layouter reads only its `inner` field. -/
structure Ty where
  inner : TypeInner
  deriving DecidableEq, Repr

/-- `Layouter::round_up` from the source:
`match offset & alignment { 0 => offset, other => offset + alignment - other }`.
The `match` is rendered as an `if` on the same scrutinee; the bound name
`other` of the source is the value `offset &&& alignment` itself. -/
def round_up (alignment offset : Nat) : Nat :=
  if offset &&& alignment = 0 then offset
  else offset + alignment - (offset &&& alignment)

/-- A half-open byte range `start..stop`; `stop` stands for the Rust field
`end`, which is a reserved word here. -/
structure ByteRange where
  start : Nat
  stop : Nat
  deriving DecidableEq, Repr

/-- `Layouter::member_placement` from the source.  The slice indexing
`self.layouts[member.ty.index()]` panics when the handle is out of bounds,
modelled by `none`.  The member-end addition is u32 arithmetic. -/
def member_placement (layouts : List TypeLayout) (offset : Nat)
    (member : StructMember) : Option (ByteRange × Nat) :=
  match layouts.get? member.ty with
  | none => none
  | some layout =>
    let alignment := member.align.getD layout.alignment
    let start := round_up alignment offset
    let stop := (start + member.size.getD layout.size) % u32Mod
    some (⟨start, stop⟩, alignment)

/-- The struct loop of `Layouter::initialize`: thread the running offset
and the biggest alignment through the members via `member_placement`. -/
def structTotals (layouts : List TypeLayout) :
    List StructMember → Nat → Nat → Option (Nat × Nat)
  | [], total, biggest => some (total, biggest)
  | member :: rest, total, biggest =>
    match member_placement layouts total member with
    | none => none
    | some (placement, alignment) =>
      structTotals layouts rest placement.stop (max biggest alignment)

/-- The array element-count match of `Layouter::initialize`: a dynamic
size counts as 0; a constant handle is looked up in the constant arena
(indexing panic modelled by `none`) and must hold a scalar integer value,
signed or unsigned, cast `as u32`; any other constant shape hits
`unreachable!` (`none`). -/
def arrayCount (constants : List Constant) : ArraySize → Option Nat
  | .constant handle =>
    match constants.get? handle with
    | none => none
    | some c =>
      match c.inner with
      | .scalar _ (.uint value) => some (value % u32Mod)
      | .scalar _ (.sint value) => some ((value % (u32Mod : Int)).toNat)
      | _ => none
  | .dynamic => some 0

/-- The per-variant body of the `Layouter::initialize` loop: the layout
pushed for one type, given the layouts of the earlier types. -/
def typeLayout (layouts : List TypeLayout) (constants : List Constant) :
    TypeInner → Option TypeLayout
  | .scalar width => (alignmentNew width).map fun a => ⟨width, a⟩
  | .vector size width =>
    let count := if size.atLeastTri then 4 else 2
    (alignmentNew (count * width % 256)).map fun a =>
      ⟨size.toNat * width % 256, a⟩
  | .matrix columns rows width =>
    let count := if rows.atLeastTri then 4 else 2
    (alignmentNew (count * width % 256)).map fun a =>
      ⟨columns.toNat * rows.toNat * width % 256, a⟩
  | .pointer => some ⟨4, 1⟩
  | .valuePointer => some ⟨4, 1⟩
  | .array base size stride =>
    match arrayCount constants size with
    | none => none
    | some count =>
      match (match stride with
             | some value => some value
             | none =>
               match layouts.get? base with
               | none => none
               | some layout =>
                 alignmentNew (round_up layout.alignment layout.size)) with
      | none => none
      | some stride => some ⟨count * stride % u32Mod, stride⟩
  | .struct members =>
    match structTotals layouts members 0 1 with
    | none => none
    | some (total, biggest) => some ⟨round_up biggest total, biggest⟩
  | .image => some ⟨0, 1⟩
  | .sampler => some ⟨0, 1⟩

/-- The loop of `Layouter::initialize`: push the layout of each type in
arena order onto the table built so far. -/
def initLayoutsAux (constants : List Constant) :
    List Ty → List TypeLayout → Option (List TypeLayout)
  | [], layouts => some layouts
  | ty :: rest, layouts =>
    match typeLayout layouts constants ty.inner with
    | none => none
    | some layout => initLayoutsAux constants rest (layouts ++ [layout])

/-- `Layouter::initialize` from the source: a single forward pass over the
type arena starting from an empty table. -/
def initLayouts (types : List Ty) (constants : List Constant) :
    Option (List TypeLayout) :=
  initLayoutsAux constants types []

/-- `Layouter::resolve` from the source: direct indexing of the layout
table by the handle index; the out-of-bounds panic is `none`. -/
def resolve (layouts : List TypeLayout) (handle : Nat) : Option TypeLayout :=
  layouts.get? handle

/-- A nonzero power of two, as the spec uses the phrase. -/
def pow2 (n : Nat) : Prop := ∃ k, n = 2 ^ k

/-- Specification-side rendering of the struct rule, written from the
words of the spec: walk the members in declaration order, threading a
running offset starting at 0 and a maximum effective alignment starting
at 1, placing each member with `member_placement` at the current offset
and advancing to the stop of the returned range; at the end the size is
`round_up` of the running offset at the maximum alignment, and the
alignment is that maximum. -/
def structSpecWalk (layouts : List TypeLayout) (offset maxAlign : Nat) :
    List StructMember → Option TypeLayout
  | [] => some ⟨round_up maxAlign offset, maxAlign⟩
  | member :: rest =>
    (member_placement layouts offset member).bind fun pa =>
      structSpecWalk layouts pa.1.stop (max maxAlign pa.2) rest

/-- Specification-side rendering of the array rule, written from the
words of the spec: the count is 0 for a dynamic size and the scalar
integer value of the referenced constant (signed or unsigned, coerced to
unsigned) otherwise; the stride is the explicit stride when given, else
the size of the base layout rounded up to the alignment of the base
layout; then the size is count times stride (u32 product) and the
alignment is the stride. -/
def arraySpecLayout (layouts : List TypeLayout) (constants : List Constant)
    (base : Nat) (sizeSpec : ArraySize) (strideOpt : Option Nat) :
    Option TypeLayout :=
  let count? : Option Nat :=
    match sizeSpec with
    | .dynamic => some 0
    | .constant handle =>
      (constants.get? handle).bind fun c =>
        match c.inner with
        | .scalar _ (.uint value) => some (value % u32Mod)
        | .scalar _ (.sint value) => some ((value % (u32Mod : Int)).toNat)
        | _ => none
  let stride? : Option Nat :=
    match strideOpt with
    | some value => some value
    | none =>
      (layouts.get? base).bind fun layout =>
        alignmentNew (round_up layout.alignment layout.size)
  count?.bind fun count =>
    stride?.bind fun stride =>
      some ⟨count * stride % u32Mod, stride⟩

/-- Well-formedness of one type, carrying over to the model the
nonzeroness that the Rust side gets from the `NonZeroU32` typing of the
explicit array stride and of the member overrides. -/
def TypeInner.wf : TypeInner → Prop
  | .array _ _ stride => ∀ s ∈ stride, 0 < s
  | .struct members => ∀ m ∈ members,
      (∀ a ∈ m.align, 0 < a) ∧ (∀ s ∈ m.size, 0 < s)
  | _ => True

theorem alignmentNew_pos {n a : Nat} (h : alignmentNew n = some a) : 0 < a := by
  unfold alignmentNew at h
  split at h
  · exact absurd h (by simp)
  · cases h
    omega

theorem round_up_of_pow2 (a o : Nat) (h : pow2 a) : round_up a o = o := by
  obtain ⟨k, rfl⟩ := h
  unfold round_up
  rw [Nat.and_two_pow]
  cases hb : o.testBit k with
  | false => simp
  | true =>
    have hpos : 0 < 2 ^ k := Nat.pos_pow_of_pos k (by norm_num)
    simp [hpos.ne']

theorem le_round_up (a o : Nat) : o ≤ round_up a o := by
  unfold round_up
  split
  · exact Nat.le_refl o
  · have h : o &&& a ≤ a := Nat.and_le_right
    omega

theorem round_up_zero (a : Nat) : round_up a 0 = 0 := by
  simp [round_up]

theorem not_pow2_twelve : ¬ pow2 12 := by
  rintro ⟨k, hk⟩
  rcases Nat.lt_or_ge k 4 with h | h
  · interval_cases k <;> simp_all
  · have h16 : (2 : Nat) ^ 4 ≤ 2 ^ k := Nat.pow_le_pow_right (by norm_num) h
    rw [← hk] at h16
    norm_num at h16

theorem member_placement_none {layouts : List TypeLayout} {offset : Nat}
    {member : StructMember} (hg : layouts.get? member.ty = none) :
    member_placement layouts offset member = none := by
  unfold member_placement
  rw [hg]

theorem member_placement_eq {layouts : List TypeLayout} {offset : Nat}
    {member : StructMember} {layout : TypeLayout}
    (hg : layouts.get? member.ty = some layout) :
    member_placement layouts offset member =
      some (⟨round_up (member.align.getD layout.alignment) offset,
             (round_up (member.align.getD layout.alignment) offset +
               member.size.getD layout.size) % u32Mod⟩,
            member.align.getD layout.alignment) := by
  unfold member_placement
  rw [hg]

end Layouter

open Layouter

/-- C1.  The formula of `round_up` is as the spec states it (return the
offset when `offset &&& alignment = 0`, else `offset + alignment - (offset &&& alignment)`,
the mask being the alignment itself), but the claim that the result is the
smallest value at least the offset satisfying the alignment test fails:
at alignment 4 and offset 4 the result is 4, which itself fails the test
`4 &&& 4 = 0`, while the aligned value 8 exists above it. -/
theorem c1_round_up_not_minimal_aligned :
    round_up 4 4 = 4 ∧ (4 : Nat) &&& 4 ≠ 0 ∧ (8 : Nat) &&& 4 = 0 := by
  decide

/-- C1 (amended).  `round_up` returns the offset when
`offset &&& alignment = 0` and otherwise `offset + alignment - (offset &&& alignment)`,
with the alignment value itself as the mask; the result is always at least
the offset, but it need not satisfy the alignment test, hence is not in
general the smallest test-satisfying value above the offset. -/
theorem c1_round_up_formula (a o : Nat) :
    (o &&& a = 0 → round_up a o = o) ∧
    (o &&& a ≠ 0 → round_up a o = o + a - (o &&& a)) ∧
    o ≤ round_up a o := by
  refine ⟨fun h => ?_, fun h => ?_, le_round_up a o⟩ <;> simp [round_up, h]

/-- Witness for C1 (amended): both branches of the formula and the lower
bound, discharged at concrete inputs. -/
theorem c1_round_up_formula_w :
    round_up 2 8 = 8 ∧ round_up 4 6 = 6 + 4 - (6 &&& 4) ∧ 6 ≤ round_up 4 6 :=
  ⟨(c1_round_up_formula 2 8).1 (by decide),
   (c1_round_up_formula 4 6).2.1 (by decide),
   (c1_round_up_formula 4 6).2.2⟩

/-- C2.  For a power-of-two alignment `round_up` is the identity on the
offset (a nonzero `offset &&& alignment` equals the alignment exactly), so
`member_placement` never moves the start past the running offset, the
final struct size equals the raw running total (no trailing padding), and
the derived default array stride equals the size of the base layout. -/
theorem c2_pow2_round_up_identity :
    (∀ a o : Nat, pow2 a → round_up a o = o) ∧
    (∀ (layouts : List TypeLayout) (offset : Nat) (member : StructMember)
       (r : ByteRange) (al : Nat),
       member_placement layouts offset member = some (r, al) → pow2 al →
       r.start = offset) ∧
    (∀ (layouts : List TypeLayout) (constants : List Constant)
       (members : List StructMember) (L : TypeLayout),
       typeLayout layouts constants (.struct members) = some L →
       pow2 L.alignment →
       structTotals layouts members 0 1 = some (L.size, L.alignment)) ∧
    (∀ (layouts : List TypeLayout) (constants : List Constant)
       (base : Nat) (sz : ArraySize) (A L : TypeLayout),
       typeLayout layouts constants (.array base sz none) = some A →
       layouts.get? base = some L → pow2 L.alignment →
       A.alignment = L.size) := by
  refine ⟨fun a o h => round_up_of_pow2 a o h, ?_, ?_, ?_⟩
  · intro layouts offset member r al h hp
    cases hg : layouts.get? member.ty with
    | none => rw [member_placement_none hg] at h; cases h
    | some layout =>
      rw [member_placement_eq hg] at h
      injection h with h1
      injection h1 with h1 h2
      subst h2
      rw [← h1]
      exact round_up_of_pow2 _ offset hp
  · intro layouts constants members L h hp
    simp only [typeLayout] at h
    cases hs : structTotals layouts members 0 1 with
    | none => rw [hs] at h; cases h
    | some tb =>
      obtain ⟨total, biggest⟩ := tb
      rw [hs] at h
      injection h with h1
      subst h1
      have ht : round_up biggest total = total := round_up_of_pow2 _ _ hp
      simp [ht]
  · intro layouts constants base sz A L h hg hp
    simp only [typeLayout] at h
    cases hc : arrayCount constants sz with
    | none => rw [hc] at h; cases h
    | some count =>
      simp only [hc, hg, round_up_of_pow2 L.alignment L.size hp] at h
      by_cases hz : L.size = 0
      · rw [hz] at h
        simp [alignmentNew] at h
      · rw [show alignmentNew L.size = some L.size from by simp [alignmentNew, hz]] at h
        injection h with h1
        subst h1
        rfl

/-- Witness for C2: each conjunct applied at a concrete power-of-two
input. -/
theorem c2_pow2_round_up_identity_w :
    round_up 16 5 = 5 ∧
    (ByteRange.mk 7 19).start = 7 ∧
    structTotals [] [] 0 1 = some ((TypeLayout.mk 0 1).size, (TypeLayout.mk 0 1).alignment) ∧
    (TypeLayout.mk 0 4).alignment = (TypeLayout.mk 4 4).size :=
  ⟨c2_pow2_round_up_identity.1 16 5 ⟨4, rfl⟩,
   c2_pow2_round_up_identity.2.1 [⟨12, 16⟩] 7 ⟨0, none, none⟩ ⟨7, 19⟩ 16
     (by decide) ⟨4, rfl⟩,
   c2_pow2_round_up_identity.2.2.1 [] [] [] ⟨0, 1⟩ (by decide) ⟨0, rfl⟩,
   c2_pow2_round_up_identity.2.2.2 [⟨4, 4⟩] [] 0 .dynamic ⟨0, 4⟩ ⟨4, 4⟩
     (by decide) (by decide) ⟨2, rfl⟩⟩

/-- C6.  For a power-of-two alignment, `round_up` is idempotent and its
result is at least the offset. -/
theorem c6_round_up_idempotent (a o : Nat) (h : pow2 a) :
    round_up a (round_up a o) = round_up a o ∧ o ≤ round_up a o :=
  ⟨round_up_of_pow2 a (round_up a o) h, le_round_up a o⟩

/-- Witness for C6 at alignment 8 and offset 3. -/
theorem c6_round_up_idempotent_w :
    round_up 8 (round_up 8 3) = round_up 8 3 ∧ 3 ≤ round_up 8 3 :=
  c6_round_up_idempotent 8 3 ⟨3, rfl⟩

theorem structTotals_eq_walk (layouts : List TypeLayout)
    (members : List StructMember) :
    ∀ offset maxAlign : Nat,
    (match structTotals layouts members offset maxAlign with
     | none => none
     | some (total, biggest) =>
       some (TypeLayout.mk (round_up biggest total) biggest)) =
    structSpecWalk layouts offset maxAlign members := by
  induction members with
  | nil => intro offset maxAlign; rfl
  | cons member rest ih =>
    intro offset maxAlign
    unfold structTotals structSpecWalk
    cases h : member_placement layouts offset member with
    | none => rfl
    | some pa =>
      obtain ⟨placement, alignment⟩ := pa
      exact ih placement.stop (max maxAlign alignment)

/-- C3.  The struct arm of `initialize` computes exactly the walk the
spec describes (offset threaded from 0, maximum alignment from 1, members
placed by `member_placement` in order, final size rounded up to the
maximum alignment), and on a struct of a 3-component width-4 vector
followed by a width-4 scalar produces member ranges 0..12 and 12..16,
struct size 16 and struct alignment 16. -/
theorem c3_struct_rule :
    (∀ (layouts : List TypeLayout) (constants : List Constant)
       (members : List StructMember),
       typeLayout layouts constants (.struct members) =
         structSpecWalk layouts 0 1 members) ∧
    initLayouts [⟨.vector .tri 4⟩, ⟨.scalar 4⟩,
        ⟨.struct [⟨0, none, none⟩, ⟨1, none, none⟩]⟩] [] =
      some [⟨12, 16⟩, ⟨4, 4⟩, ⟨16, 16⟩] ∧
    member_placement [⟨12, 16⟩, ⟨4, 4⟩] 0 ⟨0, none, none⟩ =
      some (⟨0, 12⟩, 16) ∧
    member_placement [⟨12, 16⟩, ⟨4, 4⟩] 12 ⟨1, none, none⟩ =
      some (⟨12, 16⟩, 4) := by
  refine ⟨fun layouts constants members => ?_, by decide, by decide, by decide⟩
  exact structTotals_eq_walk layouts members 0 1

theorem arrayCount_eq (constants : List Constant) (sizeSpec : ArraySize) :
    arrayCount constants sizeSpec =
      (match sizeSpec with
       | .dynamic => some 0
       | .constant handle =>
         (constants.get? handle).bind fun c =>
           match c.inner with
           | .scalar _ (.uint value) => some (value % u32Mod)
           | .scalar _ (.sint value) => some ((value % (u32Mod : Int)).toNat)
           | _ => none) := by
  cases sizeSpec with
  | dynamic => rfl
  | constant handle =>
    show (match constants.get? handle with
          | none => none
          | some c =>
            match c.inner with
            | .scalar _ (.uint value) => some (value % u32Mod)
            | .scalar _ (.sint value) => some ((value % (u32Mod : Int)).toNat)
            | _ => none) =
        (constants.get? handle).bind fun c =>
          match c.inner with
          | .scalar _ (.uint value) => some (value % u32Mod)
          | .scalar _ (.sint value) => some ((value % (u32Mod : Int)).toNat)
          | _ => none
    cases constants.get? handle with
    | none => rfl
    | some c => rfl

theorem arraySpecLayout_bind (layouts : List TypeLayout)
    (constants : List Constant) (base : Nat) (sizeSpec : ArraySize)
    (strideOpt : Option Nat) :
    arraySpecLayout layouts constants base sizeSpec strideOpt =
      (arrayCount constants sizeSpec).bind fun count =>
        (match strideOpt with
         | some value => some value
         | none =>
           (layouts.get? base).bind fun layout =>
             alignmentNew (round_up layout.alignment layout.size)).bind
          fun stride => some ⟨count * stride % u32Mod, stride⟩ := by
  unfold arraySpecLayout
  rw [arrayCount_eq]

/-- C4.  The array arm of `initialize` computes exactly the rule the spec
describes: count 0 for a dynamic size, the scalar integer value of the
referenced constant coerced to unsigned otherwise; stride the explicit
one when given, else the base size rounded up to the base alignment; size
count times stride and alignment the stride.  Concrete instances: a
dynamic array of a size-16 alignment-16 struct has size 0 and stride 16;
a signed count 3 over a width-4 scalar gives size 12; an explicit stride
8 with unsigned count 5 gives size 40. -/
theorem c4_array_rule :
    (∀ (layouts : List TypeLayout) (constants : List Constant)
       (base : Nat) (sizeSpec : ArraySize) (strideOpt : Option Nat),
       typeLayout layouts constants (.array base sizeSpec strideOpt) =
         arraySpecLayout layouts constants base sizeSpec strideOpt) ∧
    typeLayout [⟨16, 16⟩] [] (.array 0 .dynamic none) = some ⟨0, 16⟩ ∧
    typeLayout [⟨4, 4⟩] [⟨.scalar 4 (.sint 3)⟩]
      (.array 0 (.constant 0) none) = some ⟨12, 4⟩ ∧
    typeLayout [⟨4, 4⟩] [⟨.scalar 4 (.uint 5)⟩]
      (.array 0 (.constant 0) (some 8)) = some ⟨40, 8⟩ := by
  refine ⟨fun layouts constants base sizeSpec strideOpt => ?_,
    by decide, by decide, by decide⟩
  rw [arraySpecLayout_bind]
  simp only [typeLayout]
  cases hc : arrayCount constants sizeSpec with
  | none => rfl
  | some count =>
    cases strideOpt with
    | some s => rfl
    | none =>
      cases hL : layouts.get? base with
      | none => rfl
      | some layout =>
        cases ha : alignmentNew (round_up layout.alignment layout.size) with
        | none => simp [ha]
        | some s => simp [ha]

/-- C7.  `member_placement` at a running offset, for a member whose type
handle is within the table, returns the range starting at the offset
rounded up to the effective alignment (the override of the member when
present, else the alignment of the base layout), ending after the size
override of the member (else the base size), together with that effective
alignment.  The embedding is a pure function of the table, so the call
cannot mutate it. -/
theorem c7_member_placement (layouts : List TypeLayout) (offset : Nat)
    (member : StructMember) (layout : TypeLayout)
    (h : layouts.get? member.ty = some layout) :
    member_placement layouts offset member =
      some (⟨round_up (member.align.getD layout.alignment) offset,
             (round_up (member.align.getD layout.alignment) offset +
               member.size.getD layout.size) % u32Mod⟩,
            member.align.getD layout.alignment) := by
  unfold member_placement
  rw [h]

/-- Witness for C7: a width-4 3-component vector member placed at offset
5 with no overrides. -/
theorem c7_member_placement_w :
    member_placement [⟨12, 16⟩] 5 ⟨0, none, none⟩ = some (⟨5, 17⟩, 16) := by
  rw [c7_member_placement [⟨12, 16⟩] 5 ⟨0, none, none⟩ ⟨12, 16⟩ rfl]
  decide

theorem structTotals_pos {layouts : List TypeLayout}
    {members : List StructMember} :
    ∀ {total biggest total2 biggest2 : Nat},
    structTotals layouts members total biggest = some (total2, biggest2) →
    0 < biggest → 0 < biggest2 := by
  induction members with
  | nil =>
    intro total biggest t2 b2 h hb
    injection h with h1
    injection h1 with h1 h2
    subst h2
    exact hb
  | cons member rest ih =>
    intro total biggest t2 b2 h hb
    simp only [structTotals] at h
    cases hm : member_placement layouts total member with
    | none => rw [hm] at h; cases h
    | some pa =>
      obtain ⟨placement, alignment⟩ := pa
      rw [hm] at h
      exact ih h (Nat.lt_of_lt_of_le hb (Nat.le_max_left biggest alignment))

theorem typeLayout_alignment_pos {layouts : List TypeLayout}
    {constants : List Constant} {t : TypeInner} {L : TypeLayout}
    (hwf : t.wf) (h : typeLayout layouts constants t = some L) :
    0 < L.alignment := by
  cases t with
  | scalar width =>
    simp only [typeLayout, Option.map_eq_some'] at h
    obtain ⟨a, ha, hL⟩ := h
    subst hL
    exact alignmentNew_pos ha
  | vector size width =>
    simp only [typeLayout, Option.map_eq_some'] at h
    obtain ⟨a, ha, hL⟩ := h
    subst hL
    exact alignmentNew_pos ha
  | matrix columns rows width =>
    simp only [typeLayout, Option.map_eq_some'] at h
    obtain ⟨a, ha, hL⟩ := h
    subst hL
    exact alignmentNew_pos ha
  | pointer =>
    simp only [typeLayout] at h
    injection h with h1
    subst h1
    exact Nat.one_pos
  | valuePointer =>
    simp only [typeLayout] at h
    injection h with h1
    subst h1
    exact Nat.one_pos
  | array base sizeSpec strideOpt =>
    simp only [typeLayout] at h
    cases hc : arrayCount constants sizeSpec with
    | none => rw [hc] at h; cases h
    | some count =>
      cases strideOpt with
      | some s =>
        simp only [hc] at h
        injection h with h1
        subst h1
        exact hwf s rfl
      | none =>
        cases hg : layouts.get? base with
        | none => simp only [hc, hg] at h; cases h
        | some layout =>
          simp only [hc, hg] at h
          cases ha : alignmentNew (round_up layout.alignment layout.size) with
          | none => rw [ha] at h; cases h
          | some s =>
            rw [ha] at h
            injection h with h1
            subst h1
            exact alignmentNew_pos ha
  | struct members =>
    simp only [typeLayout] at h
    cases hs : structTotals layouts members 0 1 with
    | none => rw [hs] at h; cases h
    | some tb =>
      obtain ⟨total, biggest⟩ := tb
      rw [hs] at h
      injection h with h1
      subst h1
      exact structTotals_pos hs Nat.one_pos
  | image =>
    simp only [typeLayout] at h
    injection h with h1
    subst h1
    exact Nat.one_pos
  | sampler =>
    simp only [typeLayout] at h
    injection h with h1
    subst h1
    exact Nat.one_pos

theorem initLayoutsAux_alignment_pos {constants : List Constant} :
    ∀ (types : List Ty) (acc layouts : List TypeLayout),
    (∀ t ∈ types, t.inner.wf) →
    (∀ L ∈ acc, 0 < L.alignment) →
    initLayoutsAux constants types acc = some layouts →
    ∀ L ∈ layouts, 0 < L.alignment := by
  intro types
  induction types with
  | nil =>
    intro acc layouts hwf hacc h
    injection h with h1
    subst h1
    exact hacc
  | cons t rest ih =>
    intro acc layouts hwf hacc h
    simp only [initLayoutsAux] at h
    cases ht : typeLayout acc constants t.inner with
    | none => rw [ht] at h; cases h
    | some L0 =>
      rw [ht] at h
      refine ih (acc ++ [L0]) layouts
        (fun u hu => hwf u (List.mem_cons_of_mem _ hu)) ?_ h
      intro L hL
      rcases List.mem_append.mp hL with hL | hL
      · exact hacc L hL
      · obtain rfl := List.mem_singleton.mp hL
        exact typeLayout_alignment_pos (hwf t (List.mem_cons_self t rest)) ht

/-- C5 counterexample: a dynamic stride-less array of a 3-component
width-4 vector (a well-formed, forward-ordered table) gets the default
stride `round_up(16, 12) = 12` and hence alignment 12, which is not a
power of two; the claimed invariant fails. -/
theorem c5_alignment_not_pow2_cex :
    initLayouts [⟨.vector .tri 4⟩, ⟨.array 0 .dynamic none⟩] [] =
      some [⟨12, 16⟩, ⟨0, 12⟩] ∧ ¬ pow2 12 :=
  ⟨by decide, not_pow2_twelve⟩

/-- C5 (amended).  Every `TypeLayout` produced by `initialize` has a
nonzero (positive) alignment, the nonzeroness of explicit strides and
overrides being the `NonZeroU32` typing of the input; the alignment need
not be a power of two. -/
theorem c5_alignment_nonzero (types : List Ty) (constants : List Constant)
    (layouts : List TypeLayout) (hwf : ∀ t ∈ types, t.inner.wf)
    (h : initLayouts types constants = some layouts) :
    ∀ L ∈ layouts, 0 < L.alignment :=
  initLayoutsAux_alignment_pos types [] layouts hwf (by simp) h

/-- Witness for C5 (amended) on a one-scalar table. -/
theorem c5_alignment_nonzero_w : 0 < (TypeLayout.mk 4 4).alignment :=
  c5_alignment_nonzero [⟨.scalar 4⟩] [] [⟨4, 4⟩]
    (by
      intro t ht
      obtain rfl := List.mem_singleton.mp ht
      exact trivial)
    (by decide) ⟨4, 4⟩ (by simp)

/-- C8 counterexample: at 4 columns, 4 rows, width 16 the u8 size product
of the matrix arm wraps (4 * 4 * 16 = 256 = 0 mod 256), so the computed
size is 0 and not the exact product over the declared u8 operand range. -/
theorem c8_matrix_wrap_cex :
    initLayouts [⟨.matrix .quad .quad 16⟩] [] = some [⟨0, 64⟩] ∧
    (0 : Nat) ≠ 4 * 4 * 16 := by
  exact ⟨by decide, by decide⟩

/-- C8 (amended).  The matrix arm computes size `cols * rows * width` and
alignment `(rows at least 3 ? 4 : 2) * width` in 8-bit wrapping
arithmetic; whenever both products are below 256 and the width is nonzero
the exact formulas of the claim hold, and 4 columns, 4 rows, width 4
yields size 64 and alignment 16. -/
theorem c8_matrix_layout :
    (∀ (layouts : List TypeLayout) (constants : List Constant)
       (columns rows : VectorSize) (width : Nat), 0 < width →
       (if rows.atLeastTri then 4 else 2) * width < 256 →
       columns.toNat * rows.toNat * width < 256 →
       typeLayout layouts constants (.matrix columns rows width) =
         some ⟨columns.toNat * rows.toNat * width,
               (if rows.atLeastTri then 4 else 2) * width⟩) ∧
    initLayouts [⟨.matrix .quad .quad 4⟩] [] = some [⟨64, 16⟩] := by
  refine ⟨?_, by decide⟩
  intro layouts constants columns rows width hw hal hsz
  have hpos : 0 < (if rows.atLeastTri then 4 else 2) * width := by
    refine Nat.mul_pos ?_ hw
    split <;> norm_num
  simp only [typeLayout, Nat.mod_eq_of_lt hal, Nat.mod_eq_of_lt hsz]
  rw [show alignmentNew ((if rows.atLeastTri then (4 : Nat) else 2) * width) =
        some ((if rows.atLeastTri then (4 : Nat) else 2) * width) from by
      unfold alignmentNew
      rw [if_neg hpos.ne']]
  rfl

/-- Witness for C8 (amended): 4 columns, 4 rows, width 8 give size 128
and alignment 32. -/
theorem c8_matrix_layout_w :
    typeLayout [] [] (.matrix .quad .quad 8) = some ⟨128, 32⟩ := by
  have h := c8_matrix_layout.1 [] [] .quad .quad 8
    (by decide) (by decide) (by decide)
  exact h.trans (by decide)

/-- C9 counterexample: a scalar of width 0 makes `initialize` abort in
`Alignment::new(0).unwrap()` — a failure that is neither of the two modes
the claim admits (no array-size constant is involved and `resolve` is not
called), so the component has more than the two claimed failure modes. -/
theorem c9_extra_failure_cex : initLayouts [⟨.scalar 0⟩] [] = none := by
  decide

/-- C9 (amended).  All failures are fatal and produce no partial result
(the pass yields `none`, never a truncated table): among them, an
array-size constant that is not a scalar integer aborts `initialize`, and
`resolve` fails exactly on a handle index outside the table; but zero
alignments (for instance a width-0 scalar) and out-of-bounds handles
inside `initialize` abort it as well, so the two modes of the claim are
not exhaustive. -/
theorem c9_failure_modes :
    initLayouts [⟨.array 0 (.constant 0) (some 4)⟩] [⟨.composite⟩] = none ∧
    initLayouts [⟨.scalar 4⟩] [] = some [⟨4, 4⟩] ∧
    resolve [⟨4, 4⟩] 0 = some ⟨4, 4⟩ ∧
    (∀ (layouts : List TypeLayout) (handle : Nat),
       resolve layouts handle = none ↔ layouts.length ≤ handle) := by
  refine ⟨by decide, by decide, by decide, fun layouts handle => ?_⟩
  exact List.get?_eq_none

/-- Witness for C9 (amended): resolving handle 3 in an empty table
fails. -/
theorem c9_failure_modes_w : resolve [] 3 = none :=
  (c9_failure_modes.2.2.2 [] 3).mpr (by decide)

/-- C10.  An array without explicit stride over a base type whose
computed layout has size 0 makes `initialize` abort while deriving the
default stride: `round_up` at offset 0 returns 0 and the stride is then
built by `Alignment::new(0).unwrap()`; no layout is produced.  Concrete
instances: arrays of an empty struct, of an image and of a sampler. -/
theorem c10_zero_default_stride :
    (∀ (layouts : List TypeLayout) (constants : List Constant)
       (base : Nat) (sizeSpec : ArraySize) (L : TypeLayout),
       layouts.get? base = some L → L.size = 0 →
       typeLayout layouts constants (.array base sizeSpec none) = none) ∧
    initLayouts [⟨.struct []⟩, ⟨.array 0 .dynamic none⟩] [] = none ∧
    initLayouts [⟨.image⟩, ⟨.array 0 .dynamic none⟩] [] = none ∧
    initLayouts [⟨.sampler⟩, ⟨.array 0 .dynamic none⟩] [] = none := by
  refine ⟨?_, by decide, by decide, by decide⟩
  intro layouts constants base sizeSpec L hg hz
  simp only [typeLayout]
  cases hc : arrayCount constants sizeSpec with
  | none => rfl
  | some count =>
    simp only [hg, hz, round_up_zero]
    rfl

/-- Witness for C10: a dynamic array of a size-0 alignment-1 base. -/
theorem c10_zero_default_stride_w :
    typeLayout [⟨0, 1⟩] [] (.array 0 .dynamic none) = none :=
  c10_zero_default_stride.1 [⟨0, 1⟩] [] 0 .dynamic ⟨0, 1⟩ rfl rfl
